import Mathlib

/-!
Verification of `scripts/occupy_gpu.py` (GPU memory occupation utility).

The script parses a comma-separated GPU id list, validates every id against
`torch.cuda.device_count()`, allocates one tensor per GPU, then holds them
in a sleep loop with a periodic arithmetic touch until a duration elapses
or a termination signal arrives, and finally releases the tensors.

The definitions below are a shallow embedding of the script:
* time is idealised discretely: each hold-loop iteration sleeps exactly
  10 seconds (`time.sleep(10)`, line 106) and the touch and checks are
  instantaneous, so the elapsed wall-clock value read at the timeout check
  of iteration `n` is `10 * n` seconds;
* the external allocation backend (`torch`) is an oracle `alloc : Int → Bool`
  saying whether `allocate_memory` succeeds on a given GPU id;
* the environment schedule is given by `sig err : Option Nat`: `sig = some n`
  means a termination signal (SIGINT/SIGTERM) is delivered during the sleep
  of iteration `n`, `err = some n` means the keep-alive touch of iteration
  `n` raises an unrecoverable backend error (a `RuntimeError` out of
  `t += 0.0001`, line 109);
* tensor element values are float32 (`torch.zeros(..., dtype=torch.float32)`),
  so they are modelled exactly: every finite binary32 value is an integer
  multiple of `2 ^ (-149)`, and a value is represented by that integer
  (its value is the integer times `2 ^ (-149)`); addition and subtraction
  are the exact integer sum followed by IEEE-754 round-to-nearest-even
  onto the binary32 grid. Overflow and NaN are not modelled: every value
  arising in this program stays near 1.0.
-/

namespace OccupyGpu

/-- The timeout condition of the hold loop, line 113 of the source:
`args.duration > 0 and (time.time() - start_time) >= args.duration`.
`d` is the `--duration` value (a Python `int`, so possibly negative) and
`elapsed` the elapsed wall-clock seconds since the loop started. -/
def timeoutCheck (d elapsed : Int) : Bool :=
  decide (0 < d) && decide (d ≤ elapsed)

/-- Idealised elapsed wall-clock seconds at the end of iteration `n` of the
hold loop: each iteration sleeps 10 seconds (`time.sleep(10)`, line 106). -/
def iterElapsed (n : Nat) : Int :=
  10 * n

/-- Why the hold loop stopped: the duration elapsed (`break`, line 115), a
termination signal ran the handler (lines 93-98), or the keep-alive touch
raised an uncaught backend error (line 109, not caught by the
`except KeyboardInterrupt` on line 116). -/
inductive StopCause : Type where
  | timeout : StopCause
  | signal : StopCause
  | error : StopCause
deriving DecidableEq

/-- One iteration `n` (1-based) of the hold loop, lines 105-115: sleep 10 s
(during which a signal may arrive and run the handler), touch every tensor
(which may raise), then check the timeout condition. Returns the stop cause
if the loop stops during this iteration. -/
def holdIter (d : Int) (sig err : Option Nat) (n : Nat) : Option StopCause :=
  if sig = some n then some StopCause.signal
  else if err = some n then some StopCause.error
  else if timeoutCheck d (iterElapsed n) then some StopCause.timeout
  else none

/-- Fueled run of the hold loop starting at iteration `n`: returns the stop
cause and the iteration at which the loop stopped, or `none` if the loop is
still running after `fuel` iterations. -/
def holdRunAux (d : Int) (sig err : Option Nat) : Nat → Nat → Option (StopCause × Nat)
  | 0, _ => none
  | fuel + 1, n =>
    match holdIter d sig err n with
    | some c => some (c, n)
    | none => holdRunAux d sig err fuel (n + 1)

/-- The hold loop (`while True:`, line 105), started at iteration 1. -/
def holdRun (d : Int) (sig err : Option Nat) (fuel : Nat) : Option (StopCause × Nat) :=
  holdRunAux d sig err fuel 1

/-- What happens once the loop stops, as a pair (release code executed
before exit, process exit code):
* timeout: `break` falls through to `tensors.clear(); torch.cuda.empty_cache()`
  (lines 119-120) and `main` returns, exit code 0;
* signal: the handler runs `tensors.clear(); torch.cuda.empty_cache();
  sys.exit(0)` (lines 93-98);
* touch error: the exception propagates out of `main` (only
  `KeyboardInterrupt` is caught, line 116), so the cleanup on lines 119-120
  is skipped and the interpreter exits with code 1. -/
def stopOutcome : StopCause → Bool × Nat
  | StopCause.timeout => (true, 0)
  | StopCause.signal => (true, 0)
  | StopCause.error => (false, 1)

lemma holdIter_nonpos_eq (d : Int) (hd : d ≤ 0) (sig err : Option Nat) (n : Nat) :
    holdIter d sig err n = holdIter 0 sig err n := by
  have h1 : timeoutCheck d (iterElapsed n) = false := by
    simp [timeoutCheck]
    intro h
    omega
  have h0 : timeoutCheck 0 (iterElapsed n) = false := by
    simp [timeoutCheck]
  simp [holdIter, h1, h0]

lemma holdRunAux_nonpos_eq (d : Int) (hd : d ≤ 0) (sig err : Option Nat) :
    ∀ fuel n, holdRunAux d sig err fuel n = holdRunAux 0 sig err fuel n := by
  intro fuel
  induction fuel with
  | zero => intro n; rfl
  | succ k ih =>
    intro n
    simp only [holdRunAux, holdIter_nonpos_eq d hd sig err n]
    cases holdIter 0 sig err n with
    | none => exact ih (n + 1)
    | some c => rfl

lemma holdRunAux_zero_none : ∀ fuel n, holdRunAux 0 none none fuel n = none := by
  intro fuel
  induction fuel with
  | zero => intro n; rfl
  | succ k ih =>
    intro n
    have h0 : timeoutCheck 0 (iterElapsed n) = false := by
      simp [timeoutCheck]
    simp only [holdRunAux, holdIter, h0]
    simpa using ih (n + 1)

lemma holdRunAux_no_sig_no_err_cause (d : Int) :
    ∀ fuel n c m, holdRunAux d none none fuel n = some (c, m) →
      c = StopCause.timeout ∧ timeoutCheck d (iterElapsed m) = true ∧ n ≤ m ∧
        ∀ j, n ≤ j → j < m → timeoutCheck d (iterElapsed j) = false := by
  intro fuel
  induction fuel with
  | zero => intro n c m h; simp [holdRunAux] at h
  | succ k ih =>
    intro n c m h
    simp only [holdRunAux, holdIter] at h
    by_cases ht : timeoutCheck d (iterElapsed n) = true
    · simp [ht] at h
      obtain ⟨hc, hm⟩ := h
      subst hc; subst hm
      exact ⟨rfl, ht, le_refl n, fun j h1 h2 => absurd (lt_of_le_of_lt h1 h2) (lt_irrefl n)⟩
    · simp [ht] at h
      obtain ⟨hc, htm, hnm, hmin⟩ := ih (n + 1) c m h
      refine ⟨hc, htm, le_trans (Nat.le_succ n) hnm, ?_⟩
      intro j h1 h2
      rcases Nat.eq_or_lt_of_le h1 with h3 | h3
      · subst h3
        exact eq_false_of_ne_true ht
      · exact hmin j h3 h2

lemma holdRunAux_signal_only (d : Int) (sig : Option Nat) (hd : d ≤ 0) :
    ∀ fuel n c m, holdRunAux d sig none fuel n = some (c, m) → c = StopCause.signal := by
  intro fuel
  induction fuel with
  | zero => intro n c m h; simp [holdRunAux] at h
  | succ k ih =>
    intro n c m h
    have h1 : timeoutCheck d (iterElapsed n) = false := by
      simp [timeoutCheck]
      intro h
      omega
    simp only [holdRunAux, holdIter, h1] at h
    by_cases hs : sig = some n
    · simp [hs] at h
      exact h.1.symm
    · simp [hs] at h
      exact ih (n + 1) c m h

/-- C4: the hold loop transitions from Running to StoppingTimeout exactly
when the duration is positive and the elapsed wall-clock time since entry
is at least the duration (line 113); with duration 0 the timeout condition
never fires and the hold is unbounded (the loop never stops absent a signal
or a backend error). -/
theorem c4_timeout_transition :
    (∀ d : Int, ∀ n : Nat, holdIter d none none n = some StopCause.timeout ↔
      (0 < d ∧ d ≤ iterElapsed n)) ∧
    (∀ d e : Int, timeoutCheck d e = true ↔ (0 < d ∧ d ≤ e)) ∧
    (∀ e : Int, timeoutCheck 0 e = false) ∧
    (∀ fuel : Nat, holdRun 0 none none fuel = none) := by
  refine ⟨?_, ?_, ?_, ?_⟩
  · intro d n
    constructor
    · intro h
      simp only [holdIter] at h
      by_cases ht : timeoutCheck d (iterElapsed n) = true
      · simpa [timeoutCheck] using ht
      · simp [ht] at h
    · intro h
      have ht : timeoutCheck d (iterElapsed n) = true := by
        simpa [timeoutCheck] using h
      simp [holdIter, ht]
  · intro d e
    simp [timeoutCheck]
  · intro e
    simp [timeoutCheck]
  · intro fuel
    exact holdRunAux_zero_none fuel 1

/-- C10: every duration value `d ≤ 0` (the parser `type=int`, line 32,
accepts negative values) behaves exactly like duration 0: the timeout
condition never fires, the whole hold loop behaves identically to
duration 0 under every schedule, and absent a backend error the loop stops
only on a termination signal. -/
theorem c10_nonpositive_duration :
    (∀ d : Int, d ≤ 0 → ∀ e : Int, timeoutCheck d e = false) ∧
    (∀ d : Int, d ≤ 0 → ∀ sig err : Option Nat, ∀ fuel : Nat,
      holdRun d sig err fuel = holdRun 0 sig err fuel) ∧
    (∀ d : Int, d ≤ 0 → ∀ sig : Option Nat, ∀ fuel : Nat, ∀ c : StopCause, ∀ m : Nat,
      holdRun d sig none fuel = some (c, m) → c = StopCause.signal) := by
  refine ⟨?_, ?_, ?_⟩
  · intro d hd e
    simp [timeoutCheck]
    intro h
    omega
  · intro d hd sig err fuel
    exact holdRunAux_nonpos_eq d hd sig err fuel 1
  · intro d hd sig fuel c m h
    exact holdRunAux_signal_only d sig hd fuel 1 c m h

/-- C10 witness: duration `-3` at concrete schedules. -/
theorem c10_nonpositive_duration_witness :
    timeoutCheck (-3) 100 = false ∧
    holdRun (-3) (some 2) none 5 = holdRun 0 (some 2) none 5 ∧
    StopCause.signal = StopCause.signal :=
  ⟨c10_nonpositive_duration.1 (-3) (by decide) 100,
   c10_nonpositive_duration.2.1 (-3) (by decide) (some 2) none 5,
   c10_nonpositive_duration.2.2 (-3) (by decide) (some 2) 5 StopCause.signal 2 (by decide)⟩

/-- The GPU id validation loop, lines 65-70 of the source: scan the parsed
id list in order and return the first id `g` with `g < 0 or g >= num_gpus`
(the loop prints the error and exits at the first such id). -/
def findInvalid (gpuIds : List Int) (numGpus : Int) : Option Int :=
  gpuIds.find? fun g => decide (g < 0) || decide (numGpus ≤ g)

/-- Result of the allocation loop, lines 74-83 of the source.
`acquired` is the list of GPU ids on which `allocate_memory` succeeded, in
request order; `released` the ids whose tensor was dropped by
`tensors.clear()` on the failure path (line 79); `heldAfter` the ids whose
tensor is still held when the loop ends; `failed` whether some allocation
returned `None`. -/
structure AcqResult : Type where
  acquired : List Int
  released : List Int
  heldAfter : List Int
  failed : Bool
deriving DecidableEq

/-- The allocation loop, lines 74-83: allocate on each id in order; on the
first failure, drop every tensor acquired so far (`tensors.clear()`) and
stop (`sys.exit(1)` — the remaining ids are never attempted). `alloc` is
the external backend oracle: whether `allocate_memory` succeeds on an id. -/
def acquireAll (alloc : Int → Bool) : List Int → AcqResult
  | [] => ⟨[], [], [], false⟩
  | g :: rest =>
    if alloc g then
      let r := acquireAll alloc rest
      if r.failed then ⟨g :: r.acquired, g :: r.released, [], true⟩
      else ⟨g :: r.acquired, [], g :: r.heldAfter, false⟩
    else ⟨[], [], [], true⟩

/-- Observable outcome of one whole run of `main` (lines 56-122).
`exitCode` is the process exit status; `holdEntered` whether the hold loop
(lines 104-115) was reached; `acquireCount` / `releaseCount` the number of
successful backend acquire calls and of tensors dropped by the cleanup code
actually executed before exit; `cleanRelease` whether the release code
(`tensors.clear(); torch.cuda.empty_cache()`) ran on the stop path;
`invalidReported` the GPU id named in the validation error message, when
validation failed. -/
structure MainResult : Type where
  exitCode : Nat
  holdEntered : Bool
  acquireCount : Nat
  releaseCount : Nat
  cleanRelease : Bool
  invalidReported : Option Int
deriving DecidableEq

/-- The whole of `main`, lines 56-122, under the discrete schedule model.
`pg` is the result of parsing `--gpus` (`none` models the `ValueError`
branch on lines 61-63); `numGpus` is `torch.cuda.device_count()`; `d` the
`--duration` value; `alloc` the backend oracle; `sig`/`err` the signal and
touch-error schedules; `fuel` bounds the observed iterations. The result is
`none` when the loop is still running after `fuel` iterations (no exit
yet). A touch error can only arise when some tensor is held. -/
def mainRun (pg : Option (List Int)) (numGpus d : Int) (alloc : Int → Bool)
    (sig err : Option Nat) (fuel : Nat) : Option MainResult :=
  match pg with
  | none => some ⟨1, false, 0, 0, false, none⟩
  | some ids =>
    match findInvalid ids numGpus with
    | some g => some ⟨1, false, 0, 0, false, some g⟩
    | none =>
      let acq := acquireAll alloc ids
      if acq.failed then
        some ⟨1, false, acq.acquired.length, acq.released.length, false, none⟩
      else
        match holdRun d sig (if ids.isEmpty then none else err) fuel with
        | none => none
        | some (c, _) =>
          some ⟨(stopOutcome c).2, true, acq.acquired.length,
            if (stopOutcome c).1 then acq.acquired.length else 0,
            (stopOutcome c).1, none⟩

lemma acquireAll_fail_eq (alloc : Int → Bool) :
    ∀ pre : List Int, ∀ g : Int, ∀ post : List Int,
      (∀ x, x ∈ pre → alloc x = true) → alloc g = false →
      acquireAll alloc (pre ++ g :: post) = ⟨pre, pre, [], true⟩ := by
  intro pre
  induction pre with
  | nil =>
    intro g post _ hg
    simp [acquireAll, hg]
  | cons x rest ih =>
    intro g post hpre hg
    have hx : alloc x = true := hpre x (List.mem_cons_self x rest)
    have hrest : ∀ y, y ∈ rest → alloc y = true := by
      intro y hy
      exact hpre y (List.mem_cons_of_mem x hy)
    have hr := ih g post hrest hg
    simp only [List.cons_append, acquireAll, hx, if_true, List.append_eq, hr]

lemma findInvalid_first (N : Int) :
    ∀ pre : List Int, ∀ g : Int, ∀ post : List Int,
      (∀ x, x ∈ pre → 0 ≤ x ∧ x < N) → (g < 0 ∨ N ≤ g) →
      findInvalid (pre ++ g :: post) N = some g := by
  intro pre
  induction pre with
  | nil =>
    intro g post _ hg
    have : (decide (g < 0) || decide (N ≤ g)) = true := by
      rcases hg with h | h <;> simp [h]
    simp [findInvalid, List.find?, this]
  | cons x rest ih =>
    intro g post hpre hg
    have hx := hpre x (List.mem_cons_self x rest)
    have hxf : (decide (x < 0) || decide (N ≤ x)) = false := by
      simp
      omega
    have hrest : ∀ y, y ∈ rest → 0 ≤ y ∧ y < N := by
      intro y hy
      exact hpre y (List.mem_cons_of_mem x hy)
    have hr := ih g post hrest hg
    simp only [findInvalid] at hr
    simp [findInvalid, List.find?, hxf, hr]

/-- C1: if the `k`-th allocation fails (here `k = pre.length`: every id in
`pre` allocates successfully and `g` fails), every previously acquired
tensor is dropped by `tensors.clear()` before `sys.exit(1)` (lines 78-81):
acquire count equals release count, nothing remains held after rollback,
the hold loop is never entered, and the process exits with status 1. -/
theorem c1_rollback_on_failure
    (pre : List Int) (g : Int) (post : List Int) (alloc : Int → Bool)
    (N d : Int) (sig err : Option Nat) (fuel : Nat)
    (hpre : ∀ x, x ∈ pre → alloc x = true) (hg : alloc g = false)
    (hvalid : findInvalid (pre ++ g :: post) N = none) :
    (acquireAll alloc (pre ++ g :: post)).failed = true ∧
    (acquireAll alloc (pre ++ g :: post)).acquired = pre ∧
    (acquireAll alloc (pre ++ g :: post)).released = pre ∧
    (acquireAll alloc (pre ++ g :: post)).heldAfter = [] ∧
    (acquireAll alloc (pre ++ g :: post)).acquired.length =
      (acquireAll alloc (pre ++ g :: post)).released.length ∧
    mainRun (some (pre ++ g :: post)) N d alloc sig err fuel =
      some ⟨1, false, pre.length, pre.length, false, none⟩ := by
  have hacq := acquireAll_fail_eq alloc pre g post hpre hg
  refine ⟨by rw [hacq], by rw [hacq], by rw [hacq], by rw [hacq], by rw [hacq], ?_⟩
  simp only [mainRun, hvalid, hacq]
  rfl

/-- C1 witness: request `[0, 1]` against a backend that succeeds on GPU 0
and fails on GPU 1. -/
theorem c1_rollback_on_failure_witness :
    (acquireAll (fun x => decide (x < 1)) ([0] ++ 1 :: [])).failed = true ∧
    (acquireAll (fun x => decide (x < 1)) ([0] ++ 1 :: [])).acquired = [0] ∧
    (acquireAll (fun x => decide (x < 1)) ([0] ++ 1 :: [])).released = [0] ∧
    (acquireAll (fun x => decide (x < 1)) ([0] ++ 1 :: [])).heldAfter = [] ∧
    (acquireAll (fun x => decide (x < 1)) ([0] ++ 1 :: [])).acquired.length =
      (acquireAll (fun x => decide (x < 1)) ([0] ++ 1 :: [])).released.length ∧
    mainRun (some ([0] ++ 1 :: [])) 4 0 (fun x => decide (x < 1)) none none 3 =
      some ⟨1, false, [(0 : Int)].length, [(0 : Int)].length, false, none⟩ :=
  c1_rollback_on_failure [0] 1 [] (fun x => decide (x < 1)) 4 0 none none 3
    (by decide) (by decide) (by decide)

/-- C2: if some requested id is out of `[0, numGpus)` (here `g`, with every
id before it in range, so `g` is the first such id), the run fails at `g`:
the validation loop (lines 65-70) reports `g` and exits with status 1
before the allocation loop is ever reached, so zero acquire and zero
release calls are performed. -/
theorem c2_validation_upfront
    (pre : List Int) (g : Int) (post : List Int) (N d : Int)
    (alloc : Int → Bool) (sig err : Option Nat) (fuel : Nat)
    (hpre : ∀ x, x ∈ pre → 0 ≤ x ∧ x < N) (hg : g < 0 ∨ N ≤ g) :
    findInvalid (pre ++ g :: post) N = some g ∧
    mainRun (some (pre ++ g :: post)) N d alloc sig err fuel =
      some ⟨1, false, 0, 0, false, some g⟩ := by
  have hfind := findInvalid_first N pre g post hpre hg
  exact ⟨hfind, by simp [mainRun, hfind]⟩

/-- C2 witness: requesting id `N = 3` (and id 0 before it) when the
reported device count is 3. -/
theorem c2_validation_upfront_witness :
    findInvalid ([0] ++ 3 :: [1]) 3 = some 3 ∧
    mainRun (some ([0] ++ 3 :: [1])) 3 7 (fun _ => true) none none 2 =
      some ⟨1, false, 0, 0, false, some 3⟩ :=
  c2_validation_upfront [0] 3 [1] 3 7 (fun _ => true) none none 2
    (by decide) (by decide)

/-- C5 counterexample: with `--duration 5` the hold loop stops at the first
timeout check, which happens only after the hardcoded 10-second sleep
(line 106) — the elapsed time at the transition is 10 seconds, which does
not lie in the interval `[5, 6)` claimed via a 1-second keep-alive
interval; no such interval is configurable in the source. -/
theorem c5_timeout_accuracy_counterexample :
    holdRun 5 none none 1 = some (StopCause.timeout, 1) ∧
    ¬(5 ≤ iterElapsed 1 ∧ iterElapsed 1 < 6) := by
  decide

/-- C5 amended: with any positive duration `d` and no signal or backend
error, the hold loop stops with cause timeout, and the elapsed time at the
transition lies within one (hardcoded 10-second) sleep interval after the
deadline: `d ≤ elapsed < d + 10`; for `d = 5` the transition happens at 10
seconds, not inside `[5, 6)`. -/
theorem c5_timeout_accuracy_amended
    (d : Int) (fuel : Nat) (c : StopCause) (m : Nat)
    (hd : 0 < d) (h : holdRun d none none fuel = some (c, m)) :
    c = StopCause.timeout ∧ d ≤ iterElapsed m ∧ iterElapsed m < d + 10 := by
  obtain ⟨hc, htm, h1m, hmin⟩ := holdRunAux_no_sig_no_err_cause d fuel 1 c m h
  have hle : d ≤ iterElapsed m := by
    have := (c4_timeout_transition.2.1 d (iterElapsed m)).1 htm
    exact this.2
  refine ⟨hc, hle, ?_⟩
  rcases Nat.eq_or_lt_of_le h1m with h2 | h2
  · rw [← h2]
    simp only [iterElapsed, Nat.cast_one]
    omega
  · have hj := hmin (m - 1) (by omega) (by omega)
    have : ¬(0 < d ∧ d ≤ iterElapsed (m - 1)) := by
      intro hcon
      have := (c4_timeout_transition.2.1 d (iterElapsed (m - 1))).2 hcon
      rw [this] at hj
      exact Bool.true_eq_false.mp hj
    have hlt : iterElapsed (m - 1) < d := by
      by_contra hge
      exact this ⟨hd, le_of_not_lt hge⟩
    simp only [iterElapsed] at hlt ⊢
    omega

/-- C5 amended witness: duration 5 stops at iteration 1, elapsed 10 seconds,
inside `[5, 15)`. -/
theorem c5_timeout_accuracy_amended_witness :
    StopCause.timeout = StopCause.timeout ∧
    (5 : Int) ≤ iterElapsed 1 ∧ iterElapsed 1 < 5 + 10 :=
  c5_timeout_accuracy_amended 5 1 StopCause.timeout 1 (by decide) (by decide)

/-- C7 counterexample: an unrecoverable backend error raised by the
keep-alive touch (line 109) is not caught (only `KeyboardInterrupt` is,
line 116), so the process exits with status 1 while the one acquired
tensor was never released by the cleanup code: `releaseAll` does not run on
this exit path, refuting the claim that it runs on every controlled exit
path. -/
theorem c7_release_before_exit_counterexample :
    mainRun (some [0]) 1 0 (fun _ => true) none (some 1) 1 =
      some ⟨1, true, 1, 0, false, none⟩ ∧
    (stopOutcome StopCause.error).1 = false ∧
    (stopOutcome StopCause.error).2 = 1 := by
  exact ⟨by decide, rfl, rfl⟩

/-- C7 amended: on the timeout and signal stop paths (every stop cause
other than a touch error) the release code runs before the process exits
and the exit status is 0: the release count equals the acquire count and
`cleanRelease` holds. A touch error instead propagates uncaught and skips
the release code. -/
theorem c7_release_before_exit_amended
    (pg : Option (List Int)) (N d : Int) (alloc : Int → Bool)
    (sig err : Option Nat) (fuel : Nat) (r : MainResult) (c : StopCause) (m : Nat)
    (hmain : mainRun pg N d alloc sig err fuel = some r)
    (hhold : r.holdEntered = true)
    (hc : ∀ ids, pg = some ids →
      holdRun d sig (if ids.isEmpty then none else err) fuel = some (c, m))
    (hnoterr : c ≠ StopCause.error) :
    r.cleanRelease = true ∧ r.releaseCount = r.acquireCount ∧ r.exitCode = 0 := by
  have hout : stopOutcome c = (true, 0) := by
    cases c with
    | timeout => rfl
    | signal => rfl
    | error => exact absurd rfl hnoterr
  match pg with
  | none =>
    simp only [mainRun] at hmain
    rw [← Option.some_inj.mp hmain] at hhold
    simp at hhold
  | some ids =>
    have hrun := hc ids rfl
    simp only [mainRun] at hmain
    cases hfind : findInvalid ids N with
    | some g =>
      rw [hfind] at hmain
      simp only at hmain
      rw [← Option.some_inj.mp hmain] at hhold
      simp at hhold
    | none =>
      rw [hfind] at hmain
      simp only at hmain
      by_cases hfail : (acquireAll alloc ids).failed = true
      · simp only [hfail, if_true] at hmain
        rw [← Option.some_inj.mp hmain] at hhold
        simp at hhold
      · simp only [Bool.not_eq_true] at hfail
        simp only [hfail] at hmain
        rw [hrun] at hmain
        simp only [hout] at hmain
        rw [← Option.some_inj.mp hmain]
        exact ⟨rfl, rfl, rfl⟩

/-- C7 amended witness: duration 10, no error schedule — the loop stops by
timeout at iteration 1 and the release code runs with exit status 0. -/
theorem c7_release_before_exit_amended_witness :
    (⟨0, true, 1, 1, true, none⟩ : MainResult).cleanRelease = true ∧
    (⟨0, true, 1, 1, true, none⟩ : MainResult).releaseCount =
      (⟨0, true, 1, 1, true, none⟩ : MainResult).acquireCount ∧
    (⟨0, true, 1, 1, true, none⟩ : MainResult).exitCode = 0 :=
  c7_release_before_exit_amended (some [0]) 1 10 (fun _ => true) none none 1
    ⟨0, true, 1, 1, true, none⟩ StopCause.timeout 1 (by decide) rfl
    (by intro ids hids; rw [← Option.some_inj.mp hids]; decide) (by decide)

/-- C8: whenever `main` exits, the exit code is 0 exactly when the hold
loop was entered (all requested tensors acquired) and the release code ran
on the stop path (timeout or signal); and each of the three failure cases —
id parsing (`ValueError`, lines 61-63), id validation (lines 65-70), and
allocation failure (lines 77-81) — exits with status 1 without ever
entering the hold loop. -/
theorem c8_exit_codes
    (pg : Option (List Int)) (N d : Int) (alloc : Int → Bool)
    (sig err : Option Nat) (fuel : Nat) (r : MainResult)
    (hmain : mainRun pg N d alloc sig err fuel = some r) :
    (r.exitCode = 0 ↔ (r.holdEntered = true ∧ r.cleanRelease = true)) ∧
    (pg = none → r.exitCode = 1 ∧ r.holdEntered = false) ∧
    (∀ ids, pg = some ids → findInvalid ids N ≠ none →
      r.exitCode = 1 ∧ r.holdEntered = false) ∧
    (∀ ids, pg = some ids → findInvalid ids N = none →
      (acquireAll alloc ids).failed = true →
      r.exitCode = 1 ∧ r.holdEntered = false) := by
  match pg with
  | none =>
    simp only [mainRun] at hmain
    rw [← Option.some_inj.mp hmain]
    refine ⟨by simp, fun _ => ⟨rfl, rfl⟩, fun ids h => absurd h (by simp), fun ids h => absurd h (by simp)⟩
  | some ids =>
    simp only [mainRun] at hmain
    cases hfind : findInvalid ids N with
    | some g =>
      rw [hfind] at hmain
      simp only at hmain
      rw [← Option.some_inj.mp hmain]
      refine ⟨by simp, fun h => absurd h (by simp), fun ids2 _ _ => ⟨rfl, rfl⟩, ?_⟩
      intro ids2 hids2 hnone
      rw [← Option.some_inj.mp hids2] at hnone
      rw [hfind] at hnone
      exact absurd hnone (by simp)
    | none =>
      rw [hfind] at hmain
      simp only at hmain
      by_cases hfail : (acquireAll alloc ids).failed = true
      · simp only [hfail, if_true] at hmain
        rw [← Option.some_inj.mp hmain]
        exact ⟨by simp, fun h => absurd h (by simp), fun ids2 _ _ => ⟨rfl, rfl⟩,
          fun ids2 _ _ _ => ⟨rfl, rfl⟩⟩
      · simp only [Bool.not_eq_true] at hfail
        simp only [hfail] at hmain
        cases hrun : holdRun d sig (if ids.isEmpty then none else err) fuel with
        | none =>
          rw [hrun] at hmain
          exact absurd hmain (by simp)
        | some p =>
          obtain ⟨c, m⟩ := p
          rw [hrun] at hmain
          simp only at hmain
          rw [← Option.some_inj.mp hmain]
          have hvalid : ∀ ids2 : List Int, some ids = some ids2 → ¬findInvalid ids2 N ≠ none := by
            intro ids2 hids2 hne
            rw [← Option.some_inj.mp hids2] at hne
            exact hne hfind
          have hnofail : ∀ ids2 : List Int, some ids = some ids2 →
              (acquireAll alloc ids2).failed = true → False := by
            intro ids2 hids2 hf
            rw [← Option.some_inj.mp hids2] at hf
            rw [hfail] at hf
            exact Bool.false_ne_true hf
          cases c with
          | timeout =>
            exact ⟨by simp [stopOutcome], fun h => absurd h (by simp),
              fun ids2 h2 h3 => absurd h3 (hvalid ids2 h2),
              fun ids2 h2 _ h4 => absurd h4 (fun h => hnofail ids2 h2 h)⟩
          | signal =>
            exact ⟨by simp [stopOutcome], fun h => absurd h (by simp),
              fun ids2 h2 h3 => absurd h3 (hvalid ids2 h2),
              fun ids2 h2 _ h4 => absurd h4 (fun h => hnofail ids2 h2 h)⟩
          | error =>
            exact ⟨by simp [stopOutcome], fun h => absurd h (by simp),
              fun ids2 h2 h3 => absurd h3 (hvalid ids2 h2),
              fun ids2 h2 _ h4 => absurd h4 (fun h => hnofail ids2 h2 h)⟩

/-- C8 witness: a clean timeout run on GPU 0 with device count 1 and
duration 1 — exit code 0 with the hold loop entered and a clean release. -/
theorem c8_exit_codes_witness :
    ((⟨0, true, 1, 1, true, none⟩ : MainResult).exitCode = 0 ↔
      ((⟨0, true, 1, 1, true, none⟩ : MainResult).holdEntered = true ∧
       (⟨0, true, 1, 1, true, none⟩ : MainResult).cleanRelease = true)) :=
  (c8_exit_codes (some [0]) 1 1 (fun _ => true) none none 1
    ⟨0, true, 1, 1, true, none⟩ (by decide)).1

/-- Fueled floor of the base-2 logarithm of a natural number (0 for
inputs 0 and 1); the fuel argument only drives the structural recursion. -/
def log2Aux : Nat → Nat → Nat
  | 0, _ => 0
  | fuel + 1, n => if n ≤ 1 then 0 else log2Aux fuel (n / 2) + 1

/-- Floor of the base-2 logarithm of a positive natural number. -/
def log2Nat (n : Nat) : Nat := log2Aux n n

/-- Round a positive value, given as its exact integer multiple of
`2 ^ (-149)`, to the nearest IEEE-754 binary32 value (ties to even).
If the value lies in the binade `[2 ^ (e - 149), 2 ^ (e - 148))`, the
binary32 grid step there is `2 ^ (k - 149)` with `k = e - 23` for normal
values and `k = 0` in the subnormal range. -/
def roundPosScaled (v : Nat) : Nat :=
  let e := log2Nat v
  let k := if 23 ≤ e then e - 23 else 0
  let q := v / 2 ^ k
  let r := v % 2 ^ k
  if 2 * r < 2 ^ k then q * 2 ^ k
  else if 2 ^ k < 2 * r then (q + 1) * 2 ^ k
  else if q % 2 = 0 then q * 2 ^ k else (q + 1) * 2 ^ k

/-- Round a signed scaled value to the binary32 grid. -/
def roundScaled (v : Int) : Int :=
  if v < 0 then -(roundPosScaled (-v).toNat : Int) else (roundPosScaled v.toNat : Int)

/-- Round the positive rational `num / den` (already scaled by `2 ^ 149`)
to the binary32 grid — used to convert the decimal literal `0.0001` to
float32. -/
def roundRatScaled (num den : Nat) : Nat :=
  let e := if den ≤ num then log2Nat (num / den) else 0
  let k := if 23 ≤ e then e - 23 else 0
  let q := num / (den * 2 ^ k)
  let r := num % (den * 2 ^ k)
  if 2 * r < den * 2 ^ k then q * 2 ^ k
  else if den * 2 ^ k < 2 * r then (q + 1) * 2 ^ k
  else if q % 2 = 0 then q * 2 ^ k else (q + 1) * 2 ^ k

/-- binary32 addition: exact sum of the scaled integers, then one
rounding, as CUDA float32 elementwise addition performs. -/
def f32add (x y : Int) : Int := roundScaled (x + y)

/-- binary32 subtraction: exact difference, then one rounding. -/
def f32sub (x y : Int) : Int := roundScaled (x - y)

/-- The float32 value of the Python literal `0.0001` (lines 109-110): the
scalar is cast to the tensor dtype before the elementwise update, so it is
the binary32 rounding of `1 / 10000` (scaled: `2 ^ 149 / 10000`). -/
def scalar32 : Int := (roundRatScaled (2 ^ 149) 10000 : Int)

/-- The float32 value `1.0`, scaled. -/
def one32 : Int := 2 ^ 149

/-- The value stored in every element of every allocated tensor:
`torch.zeros` fills with `0.0` and `tensor += 1` (lines 44-46) stores
`fl32(0 + 1) = 1.0`. -/
def elemInit : Int := f32add 0 one32

/-- One keep-alive touch of one tensor element, lines 109-110:
`t += 0.0001; t -= 0.0001` in float32. -/
def touch32 (v : Int) : Int := f32sub (f32add v scalar32) scalar32

/-- One keep-alive pass over the held tensors (lines 108-110). -/
def touchAll (ts : List Int) : List Int := ts.map touch32

set_option maxRecDepth 40000 in
/-- C9: the keep-alive touch is a no-op on the reservation contents. Every
element of every held tensor stores exactly 1.0 (`fl32(0 + 1) = 1.0` at
allocation), the float32 constant `0.0001` is non-zero and the first half
of the touch genuinely changes the value, yet the full touch
`(v + 0.0001) - 0.0001` maps 1.0 back to exactly 1.0, so any number of
hold-loop iterations leaves every stored value exactly equal to its value
before the touch. -/
theorem c9_touch_noop :
    elemInit = one32 ∧ touch32 one32 = one32 ∧ scalar32 ≠ 0 ∧
    f32add one32 scalar32 ≠ one32 ∧
    (∀ n k : Nat, touchAll^[k] (List.replicate n elemInit) = List.replicate n elemInit) := by
  have hinit : elemInit = one32 := by decide
  have htouch : touch32 one32 = one32 := by decide
  refine ⟨hinit, htouch, by decide, by decide, ?_⟩
  intro n k
  induction k with
  | zero => rfl
  | succ j ih =>
    rw [Function.iterate_succ_apply, touchAll, List.map_replicate, hinit, htouch, ← hinit, ih]

/-- Tensor state after the first `j` micro-steps of one keep-alive pass
(lines 108-110): micro-step `2 * i` performs `t += 0.0001` on tensor `i`
and micro-step `2 * i + 1` performs `t -= 0.0001`, each a separate Python
statement. The CPython runtime may run a registered signal handler between
any two statements of the loop body, i.e. between any two micro-steps. -/
def touchStepAt (ts : List Int) (s : Nat) : List Int :=
  let i := s / 2
  let v := ts.getD i 0
  if s % 2 = 0 then ts.set i (f32add v scalar32) else ts.set i (f32sub v scalar32)

/-- The first `j` micro-steps of one keep-alive pass. -/
def touchMicro (ts : List Int) : Nat → List Int
  | 0 => ts
  | j + 1 => touchStepAt (touchMicro ts j) j

/-- What the handler installed by `signal.signal` (lines 92-101) does when
the runtime runs it: it sees the tensor values as they are at that
instant, drops every held tensor (`tensors.clear();
torch.cuda.empty_cache()`) and exits with status 0. -/
structure HandlerResult : Type where
  observed : List Int
  heldAfter : List Int
  exitCode : Nat
deriving DecidableEq

/-- The body of `signal_handler`, lines 92-98, run on the state at the
instant of delivery. -/
def signalHandler (ts : List Int) : HandlerResult := ⟨ts, [], 0⟩

set_option maxRecDepth 40000 in
/-- C6 counterexample: the handler is asynchronous (installed via
`signal.signal`, lines 100-101; there is no signal flag polled at the top
of the loop), so a signal delivered after micro-step 1 of a touch pass
over a single tensor holding 1.0 runs the handler in the middle of an
in-flight keep-alive touch: it observes `fl32(1 + 0.0001) ≠ 1.0`, a
partially applied touch — refuting the claim that a signal is never
handled by asynchronous interruption of an in-flight touch. -/
theorem c6_async_handler_counterexample :
    (signalHandler (touchMicro [one32] 1)).observed ≠ [one32] ∧
    touchMicro [one32] 1 = [f32add one32 scalar32] ∧
    (signalHandler (touchMicro [one32] 1)).exitCode = 0 := by
  refine ⟨?_, ?_, rfl⟩
  · intro h
    have : f32add one32 scalar32 = one32 := by
      have h2 : touchMicro [one32] 1 = [f32add one32 scalar32] := by decide
      rw [h2] at h
      exact List.cons_eq_cons.mp h |>.1
    exact absurd this (by decide)
  · decide

/-- C6 amended: a termination signal arriving while the hold loop runs is
handled by the asynchronous handler installed for SIGINT and SIGTERM,
which the runtime may run at any micro-step boundary of the loop body,
including in the middle of a keep-alive touch; whenever it runs, it
releases every held reservation and exits with status 0. -/
theorem c6_signal_handler_amended :
    ∀ ts : List Int, ∀ j : Nat,
      (signalHandler (touchMicro ts j)).heldAfter = [] ∧
      (signalHandler (touchMicro ts j)).exitCode = 0 :=
  fun _ _ => ⟨rfl, rfl⟩

end OccupyGpu
